import Mathlib

/-!
Verification of the market-regime and anomaly engine of the macro-news
repository (src/analyzers/market_analysis.py), shallowly embedded in Lean.

Modelling conventions:
- Python floats are modelled by the rationals; explicit comments mark the
  spots where float special values (NaN, inf) can arise in the source and
  how the model reproduces the observable behaviour there.
- Python dicts with string keys are modelled as association lists
  (first-match lookup, insertion order preserved, in-place overwrite),
  matching dict iteration order.
- A key that may be missing is modelled as an Option field; collector
  produced PricePoint entries never carry null values, so Option none
  models key absence (dict access of a missing key raises KeyError,
  dict.get of a missing key yields the supplied default).
- The per-symbol PricePoint carries more fields in the source
  (high, low, open, previous_close, timestamp); the analyzer reads only
  symbol, price, change and volume, so only those are modelled.
-/

/-- Python KeyError, the only exception the typed embedding can raise;
the payload is the missing key. -/
inductive PyErr where
  | keyError (key : String)
deriving DecidableEq, Repr

/-- The fields of a collector PricePoint that market_analysis.py reads.
A field holding none models the key being absent from the dict. -/
structure PriceData where
  symbol : Option String
  price : Option ℚ
  change : Option ℚ
  volume : Option ℚ
deriving DecidableEq, Repr

/-- A PricePoint dict that is the empty dict (falsy in Python). -/
def emptyPriceData : PriceData := ⟨none, none, none, none⟩

/-- One asset-class section: symbol to PricePoint, in dict order. -/
abbrev AssetSection := List (String × PriceData)

/-- A mapping asset_class to symbol to PricePoint, the shape iterated by
_update_historical_data and by the per-asset loops of the analyzer. -/
abbrev UpdateInput := List (String × AssetSection)

/-- The credit_spreads section of a snapshot (a dict of floats). -/
structure CreditSpreadsSection where
  high_yield : Option ℚ
deriving DecidableEq, Repr

/-- The bonds section of a snapshot: nested dicts rates and corporates,
each holding PricePoint-shaped entries (US10Y, US2Y, IG, HY). -/
structure BondsSection where
  rates : Option AssetSection
  corporates : Option AssetSection
deriving DecidableEq, Repr

/-- The market_quality section of a snapshot. -/
structure MarketQualitySection where
  bid_ask_spreads : Option (List (String × ℚ))
deriving DecidableEq, Repr

/-- A current-data snapshot handed to the regime classifier.  The
PricePoint-shaped asset-class sections (indices, fx, commodities, ...)
live in sections and are both key-addressable and iterated by the
per-asset loops; the sections whose values are not PricePoint-shaped
(credit_spreads, bonds, market_quality) are modelled as separate typed
fields.  In the source the generic per-asset loops that meet those
sections fail per entry and the failure is swallowed by the per-asset
try/except, which is observationally the same as not iterating them. -/
structure Snapshot where
  sections : UpdateInput
  credit_spreads : Option CreditSpreadsSection
  bonds : Option BondsSection
  market_quality : Option MarketQualitySection
deriving DecidableEq, Repr

/-- A snapshot with no data at all. -/
def emptySnapshot : Snapshot := ⟨[], none, none, none⟩

/-- The in-memory historical store self.historical_data:
symbol to list of stored prices (or volumes), in insertion order. -/
abbrev Store := List (String × List ℚ)

/-- Dict lookup d[k] / d.get(k): first binding of the key, if any. -/
def dictGet {α : Type} : List (String × α) → String → Option α
  | [], _ => none
  | (k, v) :: rest, key => if key = k then some v else dictGet rest key

/-- Dict write d[k] = v: overwrite the first binding in place, or append
a new binding at the end (Python dict insertion-order semantics). -/
def dictSet {α : Type} : List (String × α) → String → α → List (String × α)
  | [], key, v => [(key, v)]
  | (k, w) :: rest, key, v =>
      if key = k then (key, v) :: rest else (k, w) :: dictSet rest key v

/-- Python slice l[-n:].  For n = 0 the slice l[-0:] is the whole list;
for 0 < n it keeps the last n elements (all of them when n exceeds the
length). -/
def sliceLast {α : Type} (n : Nat) (l : List α) : List α :=
  if n = 0 then l else l.drop (l.length - n)

/-- np.mean over a list of floats, in exact arithmetic.  Every call site
in the embedded code guards the list to be nonempty, so the ℚ convention
sum / 0 = 0 for the empty list is never observable (numpy would give
NaN there). -/
def qmean (l : List ℚ) : ℚ := l.sum / (l.length : ℚ)

/-- Process one (asset, price_data) entry of _update_historical_data:
initialize the series if the asset is new, then append price_data of key
price and keep only the last lookback entries.  A missing price key
raises KeyError AFTER the series was initialized, and the store mutations
made so far are kept (the source mutates self.historical_data in place),
so the result is the store at the point of the error paired with the
error. -/
def updateAsset (lookback : Nat) (store : Store) (asset : String)
    (pd : PriceData) : Store × Option PyErr :=
  let store1 := match dictGet store asset with
    | none => dictSet store asset []
    | some _ => store
  match pd.price with
  | none => (store1, some (.keyError "price"))
  | some p =>
      let l := (dictGet store1 asset).getD [] ++ [p]
      (dictSet store1 asset (sliceLast lookback l), none)

/-- The inner loop of _update_historical_data over one asset-class
section; the first raised error aborts the remaining iterations. -/
def updateAssets (lookback : Nat) (store : Store) :
    List (String × PriceData) → Store × Option PyErr
  | [] => (store, none)
  | (a, pd) :: rest =>
      match updateAsset lookback store a pd with
      | (store1, none) => updateAssets lookback store1 rest
      | (store1, some e) => (store1, some e)

/-- _update_historical_data: iterate all asset-class sections; an error
aborts the remaining sections.  The store at the point of the error is
returned together with the error, since the source mutates in place and
the exception propagates out of the method uncaught. -/
def update_historical_data (lookback : Nat) (newData : UpdateInput)
    (store : Store) : Store × Option PyErr :=
  match newData with
  | [] => (store, none)
  | (_, assets) :: rest =>
      match updateAssets lookback store assets with
      | (store1, none) => update_historical_data lookback rest store1
      | (store1, some e) => (store1, some e)

/-- _get_historical_volumes: self.historical_data.get(asset + "_volume", []). -/
def get_historical_volumes (store : Store) (asset : String) : List ℚ :=
  (dictGet store (asset ++ "_volume")).getD []

/-- VIX thresholds from self.regime_thresholds (hardcoded literals). -/
def vixLow : ℚ := 15

def vixElevated : ℚ := 25

def vixHigh : ℚ := 35

/-- Correlation thresholds from self.regime_thresholds. -/
def corrNormalTh : ℚ := 2/5

def corrHighTh : ℚ := 7/10

/-- Liquidity thresholds from self.regime_thresholds. -/
def liqTight : ℚ := -(1/2)

def liqStressed : ℚ := -1

/-- _calculate_trend.  Reads price_data of keys symbol and then price
(each raising KeyError when absent); when the stored history of the
symbol has fewer than 20 points it returns insufficient_data before ever
reading the price key.  np.mean of the slices is exact rational mean. -/
def calculate_trend (store : Store) (pd : PriceData) :
    Except PyErr String :=
  match pd.symbol with
  | none => .error (.keyError "symbol")
  | some sym =>
      let hist := (dictGet store sym).getD []
      if hist.length < 20 then .ok "insufficient_data"
      else
        let ma20 := qmean (sliceLast 20 hist)
        let ma50 := if hist.length ≥ 50 then qmean (sliceLast 50 hist) else ma20
        match pd.price with
        | none => .error (.keyError "price")
        | some current =>
            .ok (if current > ma20 ∧ ma20 > ma50 then "strong_uptrend"
              else if current > ma20 then "uptrend"
              else if current < ma20 ∧ ma20 < ma50 then "strong_downtrend"
              else if current < ma20 then "downtrend"
              else "neutral")

/-- The body of _analyze_risk_environment before its except KeyError
handler.  Reads data of key indices, then VIX price (KeyError when
absent), the SPX trend, and the optional high-yield credit spread via
chained .get calls; then accumulates the integer risk score.  The
truthiness test if credit_spreads: skips the spread contribution both
when the value is absent and when it is exactly 0. -/
def analyze_risk_environment_core (store : Store) (d : Snapshot) :
    Except PyErr String :=
  match dictGet d.sections "indices" with
  | none => .error (.keyError "indices")
  | some indices =>
  match dictGet indices "VIX" with
  | none => .error (.keyError "VIX")
  | some vixEntry =>
  match vixEntry.price with
  | none => .error (.keyError "price")
  | some vix =>
  match dictGet indices "SPX" with
  | none => .error (.keyError "SPX")
  | some spxEntry =>
  match calculate_trend store spxEntry with
  | .error e => .error e
  | .ok spxTrend =>
      let credit := d.credit_spreads.bind (·.high_yield)
      let s1 : Int := if vix < vixLow then 2 else if vix > vixHigh then -2 else 0
      let s2 : Int :=
        if spxTrend = "strong_uptrend" ∨ spxTrend = "uptrend" then 1
        else if spxTrend = "strong_downtrend" ∨ spxTrend = "downtrend" then -1
        else 0
      let s3 : Int := match credit with
        | none => 0
        | some c =>
            if c = 0 then 0 else if c < 3 then 1 else if c > 5 then -1 else 0
      let score := s1 + s2 + s3
      .ok (if score ≥ 2 then "risk_on"
        else if score ≤ -2 then "risk_off"
        else "neutral")

/-- _analyze_risk_environment: the core wrapped in except KeyError,
which maps any KeyError to unknown.  In the typed embedding the core can
only raise KeyError, matching the source where all raised errors on this
path are dict key accesses. -/
def analyze_risk_environment (store : Store) (d : Snapshot) : String :=
  match analyze_risk_environment_core store d with
  | .ok s => s
  | .error _ => "unknown"

/-- _analyze_volatility_regime: chained .get lookups of the VIX price;
the truthiness test if not vix_level: yields unknown both when the price
is absent and when it is exactly 0.  The surrounding except Exception
handler is unreachable in the typed embedding. -/
def analyze_volatility_regime (d : Snapshot) : String :=
  match ((dictGet d.sections "indices").bind
      (fun idx => dictGet idx "VIX")).bind (·.price) with
  | none => "unknown"
  | some v =>
      if v = 0 then "unknown"
      else if v < vixLow then "low"
      else if v < vixElevated then "normal"
      else if v < vixHigh then "elevated"
      else "high"

/-- The volume-comparison part of _analyze_liquidity_conditions: for
every asset of every section that carries a volume key and has a
nonempty historical volume series, add +1 when the current volume is
strictly above the historical mean and -1 otherwise, and count the
component.  Returns (score, components). -/
def liquidityVolumeComponents (store : Store) (sections : UpdateInput) :
    Int × Nat :=
  sections.foldl (fun acc cls =>
    cls.2.foldl (fun acc ap =>
      match ap.2.volume with
      | none => acc
      | some v =>
          let histv := get_historical_volumes store ap.1
          if histv = [] then acc
          else ((if v > qmean histv then acc.1 + 1 else acc.1 - 1),
            acc.2 + 1)) acc) (0, 0)

/-- _analyze_liquidity_conditions: volume components plus the bid-ask
component (the truthiness test if spreads: requires a nonempty dict),
normalized by the component count; zero components give unknown.  The
surrounding except Exception handler is unreachable in the typed
embedding. -/
def analyze_liquidity_conditions (store : Store) (d : Snapshot) : String :=
  let v := liquidityVolumeComponents store d.sections
  let spreads := (d.market_quality.bind (·.bid_ask_spreads)).getD []
  let sc :=
    if spreads ≠ [] then
      let avgSpread := qmean (spreads.map (·.2))
      ((if avgSpread < liqTight then v.1 + 1
        else if avgSpread > liqStressed then v.1 - 2
        else v.1), v.2 + 1)
    else v
  if sc.2 = 0 then "unknown"
  else
    let avgScore : ℚ := (sc.1 : ℚ) / (sc.2 : ℚ)
    if avgScore > 1/2 then "ample"
    else if avgScore > -(1/2) then "normal"
    else "tight"

/-- _calculate_yield_curve_slope: 0.0 when the bonds section is absent,
otherwise the US10Y price minus the US2Y price, each read through
chained .get calls defaulting to 0.  The except handler is unreachable
in the typed embedding. -/
def calculate_yield_curve_slope (d : Snapshot) : ℚ :=
  match d.bonds with
  | none => 0
  | some b =>
      let rates := b.rates.getD []
      let tenYear := ((dictGet rates "US10Y").bind (·.price)).getD 0
      let twoYear := ((dictGet rates "US2Y").bind (·.price)).getD 0
      tenYear - twoYear

/-- The result dict of _analyze_credit_spreads: each spread key is
present only when its truthiness condition held. -/
structure SpreadsResult where
  ig_spread : Option ℚ
  hy_spread : Option ℚ
deriving DecidableEq, Repr

/-- _analyze_credit_spreads.  An absent bonds section returns the empty
dict; a bonds section without a rates key raises KeyError on
data[bonds][rates], caught by the local except, so the spreads built so
far (none) are returned.  Otherwise each spread is recorded only when
both the treasury yield and the corporate yield are truthy (nonzero). -/
def analyze_credit_spreads (d : Snapshot) : SpreadsResult :=
  match d.bonds with
  | none => ⟨none, none⟩
  | some b =>
      match b.rates with
      | none => ⟨none, none⟩
      | some rates =>
          let treasury10y := ((dictGet rates "US10Y").bind (·.price)).getD 0
          let corporates := b.corporates.getD []
          let igYield := ((dictGet corporates "IG").bind (·.price)).getD 0
          let hyYield := ((dictGet corporates "HY").bind (·.price)).getD 0
          ⟨if treasury10y ≠ 0 ∧ igYield ≠ 0 then some (igYield - treasury10y)
            else none,
           if treasury10y ≠ 0 ∧ hyYield ≠ 0 then some (hyYield - treasury10y)
            else none⟩

/-- _identify_dominant_factors.  The factors are appended in source
order; note the recession branch tests abs(curve_slope) < 0, which is
never true, so recession_risk is dead code.  The empty list becomes the
singleton no_dominant_factor.  The except handler returning [unknown]
is unreachable in the typed embedding. -/
def identify_dominant_factors (d : Snapshot) : List String :=
  let f1 := match dictGet d.sections "indices" with
    | none => []
    | some idx => match dictGet idx "VIX" with
      | none => []
      | some pd => if pd.price.getD 0 > vixHigh then ["risk_aversion"] else []
  let slope := calculate_yield_curve_slope d
  let f2 := if |slope| < 0 then ["recession_risk"]
    else if slope > 1 then ["growth_expectations"]
    else []
  let sp := analyze_credit_spreads d
  let f3 := if sp.hy_spread.getD 0 > 5 then ["credit_stress"] else []
  let f4 := match dictGet d.sections "fx" with
    | none => []
    | some fx => match dictGet fx "DXY" with
      | none => []
      | some pd =>
          let ch := pd.change.getD 0
          if |ch| > 1 then
            [if ch > 0 then "dollar_dominance" else "dollar_weakness"]
          else []
  let f5 := match dictGet d.sections "commodities" with
    | none => []
    | some cs =>
        if cs.any (fun p => p.2.change.getD 0 > 5) then ["commodity_pressure"]
        else []
  let factors := f1 ++ f2 ++ f3 ++ f4 ++ f5
  if factors = [] then ["no_dominant_factor"] else factors

/-- Last element of a list, with a default (np indexing arr[-1]; every
call site has a nonempty array). -/
def lastD (l : List ℚ) (dflt : ℚ) : ℚ := (l.getLast?).getD dflt

/-- Population variance of an array, in exact arithmetic (the variance
scipy zscore divides by, ddof = 0). -/
def popVar (xs : List ℚ) : ℚ :=
  (xs.map (fun x => (x - qmean xs) ^ 2)).sum / (xs.length : ℚ)

/-- The comparison abs(zscore(xs)[-1]) > t of the source, in exact
arithmetic.  scipy zscore divides by the population standard deviation,
an irrational square root, so the comparison is embedded in the
equivalent squared form dev^2 > t^2 * var (for t ≥ 0 and var > 0 the two
are equivalent; for var = 0 scipy produces NaN, every float comparison
with NaN is False, and here dev = 0 makes the squared form False as
well, so the embedding agrees).  The bridging lemma
zscoreSqGt_iff_zscoreR below proves the equivalence with the real-valued
z-score. -/
def zscoreSqGt (xs : List ℚ) (t : ℚ) : Bool :=
  decide ((lastD xs 0 - qmean xs) ^ 2 > t ^ 2 * popVar xs)

/-- The real-valued population z-score of the last element of an array,
as computed by scipy zscore; with zero variance the real-division
convention x / 0 = 0 stands in for NaN, and both make every strict
comparison with a positive threshold False. -/
noncomputable def zscoreLastR (xs : List ℚ) : ℝ :=
  ((lastD xs 0 - qmean xs : ℚ) : ℝ) / Real.sqrt ((popVar xs : ℚ) : ℝ)

/-- An emitted anomaly record.  The numeric payload fields of the source
(zscore, move, volumes) are irrational or redundant and no claim reads
them, so the record keeps the type, the qualified asset name and the
severity. -/
structure Anomaly where
  atype : String
  asset : String
  severity : String
deriving DecidableEq, Repr

/-- The body of the per-asset loop of _detect_price_anomalies.  The
empty PricePoint dict is skipped by if not price_data; a missing symbol
or price key raises KeyError inside the per-asset try, which is caught
and the loop continues, so the asset contributes nothing; fewer than 20
history points also contribute nothing.  Otherwise the z-score check
(threshold 3, severity high above 4) and the move check (threshold 5
percent, severity high above 10 percent) append their records in this
order. -/
def priceAnomaliesForAsset (store : Store) (className asset : String)
    (pd : PriceData) : List Anomaly :=
  if pd = emptyPriceData then []
  else
    match pd.symbol with
    | none => []
    | some sym =>
        let hist := (dictGet store sym).getD []
        if hist.length < 20 then []
        else
          match pd.price with
          | none => []
          | some current =>
              let combined := hist ++ [current]
              let zs := if zscoreSqGt combined 3 then
                  [⟨"price_zscore", className ++ "_" ++ asset,
                    if zscoreSqGt combined 4 then "high" else "medium"⟩]
                else []
              let dailyReturn := pd.change.getD 0 / 100
              let mv := if |dailyReturn| > 1/20 then
                  [⟨"price_move", className ++ "_" ++ asset,
                    if |dailyReturn| > 1/10 then "high" else "medium"⟩]
                else []
              zs ++ mv

/-- _detect_price_anomalies: the double loop over asset classes and
assets, collecting the per-asset records in iteration order. -/
def detect_price_anomalies (store : Store) (d : Snapshot) : List Anomaly :=
  d.sections.flatMap (fun cls =>
    cls.2.flatMap (fun ap => priceAnomaliesForAsset store cls.1 ap.1 ap.2))

/-- The body of the per-asset loop of _detect_volume_anomalies: skip
assets without a volume key, skip assets with an empty historical volume
series, otherwise apply the z-score check with threshold 2.5 (severity
high above 3). -/
def volumeAnomaliesForAsset (store : Store) (className asset : String)
    (pd : PriceData) : List Anomaly :=
  match pd.volume with
  | none => []
  | some v =>
      let histv := get_historical_volumes store asset
      if histv = [] then []
      else
        let combined := histv ++ [v]
        if zscoreSqGt combined (5/2) then
          [⟨"volume_anomaly", className ++ "_" ++ asset,
            if zscoreSqGt combined 3 then "high" else "medium"⟩]
        else []

/-- _detect_volume_anomalies: the double loop over asset classes and
assets, collecting the per-asset records in iteration order. -/
def detect_volume_anomalies (store : Store) (d : Snapshot) : List Anomaly :=
  d.sections.flatMap (fun cls =>
    cls.2.flatMap (fun ap => volumeAnomaliesForAsset store cls.1 ap.1 ap.2))

/-- np.diff(prices) / prices[:-1], the daily-return series of
_calculate_correlations.  The ℚ convention x / 0 = 0 stands in for the
inf/NaN a zero price would produce in numpy; no claim evaluates the
correlation matrix at a store holding a zero price. -/
def assetReturns (prices : List ℚ) : List ℚ :=
  (prices.zip (prices.drop 1)).map (fun p => (p.2 - p.1) / p.1)

/-- The columns of the DataFrame built by _calculate_correlations: the
return series of every stored symbol with at least 20 prices, in store
order. -/
def corrColumns (store : Store) : List (List ℚ) :=
  (store.filter (fun p => 20 ≤ p.2.length)).map (fun p => assetReturns p.2)

/-- Whether all DataFrame columns have equal length; pd.DataFrame raises
ValueError on unequal-length arrays, which _calculate_correlations
catches, returning the empty DataFrame. -/
def allSameLength (ls : List (List ℚ)) : Bool :=
  ls.all (fun l => l.length = (ls.headD []).length)

/-- One entry of the pairwise Pearson correlation matrix of
DataFrame.corr, in absolute value: abs cov / sqrt (varx * vary) (the 1/n
factors cancel).  A zero variance yields NaN in pandas, modelled as
none. -/
noncomputable def pearsonAbsR (xs ys : List ℚ) : Option ℝ :=
  let mx := qmean xs
  let my := qmean ys
  let cov : ℚ := ((xs.zip ys).map (fun p => (p.1 - mx) * (p.2 - my))).sum
  let vx : ℚ := (xs.map (fun x => (x - mx) ^ 2)).sum
  let vy : ℚ := (ys.map (fun y => (y - my) ^ 2)).sum
  if vx = 0 ∨ vy = 0 then none
  else some (|(cov : ℝ)| / Real.sqrt ((vx : ℝ) * (vy : ℝ)))

/-- np.mean(np.abs(corr_matrix.values)) over the full n-by-n matrix of
_calculate_correlations (diagonal included), with none standing for NaN:
the empty DataFrame (no qualifying symbol, or unequal series lengths)
has an empty values array whose mean is NaN, and any NaN entry (a
constant return series) makes the mean NaN. -/
noncomputable def meanAbsCorr (store : Store) : Option ℝ :=
  let cols := corrColumns store
  if cols.isEmpty then none
  else if ¬ allSameLength cols then none
  else
    let entries := cols.flatMap (fun x => cols.map (fun y => pearsonAbsR x y))
    if entries.any (·.isNone) then none
    else some ((entries.map (fun e => e.getD 0)).sum / (entries.length : ℝ))

/-- _analyze_correlation_regime.  There is no local except and no
unknown outcome in the source: a NaN mean (none) makes both threshold
comparisons False, landing in the choppy branch. -/
noncomputable def analyze_correlation_regime (store : Store) : String :=
  match meanAbsCorr store with
  | none => "choppy"
  | some avgCorr =>
      if avgCorr > ((corrHighTh : ℚ) : ℝ) then "risk_off_correlation"
      else if avgCorr > ((corrNormalTh : ℚ) : ℝ) then "normal"
      else "choppy"

/-- The MarketRegime dataclass. -/
structure MarketRegime where
  risk_environment : String
  volatility_regime : String
  liquidity_conditions : String
  correlation_regime : String
  dominant_factors : List String
deriving DecidableEq, Repr

/-- _determine_market_regime: the four sub-classifications plus the
dominant factors, each reading the store and the snapshot only. -/
noncomputable def determine_market_regime (store : Store) (d : Snapshot) :
    MarketRegime :=
  { risk_environment := analyze_risk_environment store d
    volatility_regime := analyze_volatility_regime d
    liquidity_conditions := analyze_liquidity_conditions store d
    correlation_regime := analyze_correlation_regime store
    dominant_factors := identify_dominant_factors d }

/-- One call of the regime classification as a state transformer over
the historical store: _determine_market_regime and every sub-analyzer
only read self.historical_data (the store is updated by the separate
_update_historical_data step, not here), so the store component is
returned unchanged. -/
noncomputable def run_classify (d : Snapshot) (store : Store) :
    MarketRegime × Store :=
  (determine_market_regime store d, store)

/-! Spec-side definitions, written from the words of the claims, to be
compared with the embedded source functions. -/

/-- Spec-side risk score, exactly as claim C1 words it: the high-yield
spread, when present, contributes +1 below 3 and -1 above 5 with no
exception for the value 0. -/
def riskScoreSpec (vix : ℚ) (trend : String) (hy : Option ℚ) : Int :=
  (if vix < 15 then 2 else if vix > 35 then -2 else 0)
  + (if trend = "strong_uptrend" ∨ trend = "uptrend" then 1
     else if trend = "strong_downtrend" ∨ trend = "downtrend" then -1
     else 0)
  + (match hy with
     | none => 0
     | some c => if c < 3 then 1 else if c > 5 then -1 else 0)

/-- The amended risk score: as C1, except that a present spread of
exactly 0 contributes nothing (the Python truthiness test). -/
def riskScoreAmendedSpec (vix : ℚ) (trend : String) (hy : Option ℚ) : Int :=
  (if vix < 15 then 2 else if vix > 35 then -2 else 0)
  + (if trend = "strong_uptrend" ∨ trend = "uptrend" then 1
     else if trend = "strong_downtrend" ∨ trend = "downtrend" then -1
     else 0)
  + (match hy with
     | none => 0
     | some c => if c = 0 then 0 else if c < 3 then 1 else if c > 5 then -1 else 0)

/-- Score to label, as claim C1 words it: risk_on iff score ≥ 2,
risk_off iff score ≤ -2, neutral otherwise. -/
def riskLabelOfScore (score : Int) : String :=
  if score ≥ 2 then "risk_on"
  else if score ≤ -2 then "risk_off"
  else "neutral"

/-- Spec-side trend classification, as claim C2 words it: MA20 is the
mean of the last 20 stored prices, MA50 the mean of the last 50 (equal
to MA20 when fewer than 50 points exist), compared strictly. -/
def trendSpec (hist : List ℚ) (current : ℚ) : String :=
  if hist.length < 20 then "insufficient_data"
  else
    let ma20 := (hist.drop (hist.length - 20)).sum / 20
    let ma50 := if hist.length < 50 then ma20
      else (hist.drop (hist.length - 50)).sum / 50
    if current > ma20 ∧ ma20 > ma50 then "strong_uptrend"
    else if current > ma20 then "uptrend"
    else if current < ma20 ∧ ma20 < ma50 then "strong_downtrend"
    else if current < ma20 then "downtrend"
    else "neutral"

/-! Reachability and well-formedness predicates for the store claims. -/

/-- Every stored series has length at most lookback. -/
def StoreBounded (lookback : Nat) (store : Store) : Prop :=
  ∀ p ∈ store, p.2.length ≤ lookback

/-- Every entry of the update input carries a price key. -/
def WellFormedInput (input : UpdateInput) : Prop :=
  ∀ cls ∈ input, ∀ ap ∈ cls.2, ap.2.price ≠ none

/-- No asset name occurring in any of the snapshots ends in _volume
(a string ends in _volume exactly when it is some x followed by
_volume). -/
def NoVolumeNames (snaps : List UpdateInput) : Prop :=
  ∀ snap ∈ snaps, ∀ cls ∈ snap, ∀ ap ∈ cls.2, ∀ x : String,
    ap.1 ≠ x ++ "_volume"

/-- A sequence of update calls applied to a store, keeping the store
each call returns (also on error: the source mutates in place). -/
def applyUpdates (lookback : Nat) (snaps : List UpdateInput)
    (store : Store) : Store :=
  snaps.foldl (fun s snap => (update_historical_data lookback snap s).1) store

/-- A single-entry update input carrying one price for one symbol. -/
def singlePointInput (sym : String) (p : ℚ) : UpdateInput :=
  [("prices", [(sym, ⟨none, some p, none, none⟩)])]

/-- Appending a sequence of points to one symbol via repeated update
calls, starting from the empty store. -/
def appendPoints (lookback : Nat) (sym : String) (ps : List ℚ) : Store :=
  ps.foldl
    (fun s p => (update_historical_data lookback (singlePointInput sym p) s).1)
    []

/-! Concrete inputs for counterexamples and witnesses. -/

/-- An SPX PricePoint at price 101 (one above a flat 100 history). -/
def spxUptrendEntry : PriceData := ⟨some "SPX", some 101, none, none⟩

/-- A store in which SPX has 20 stored prices of 100, so the SPX trend
at current price 101 is uptrend. -/
def c1Store : Store := [("SPX", [100, 100, 100, 100, 100, 100, 100, 100, 100, 100, 100, 100, 100, 100, 100, 100, 100, 100, 100, 100])]

/-- Counterexample snapshot for C1: VIX = 20 (no VIX contribution), SPX
in uptrend (+1), and a PRESENT high-yield spread of exactly 0 (claimed
+1 since 0 < 3, but falsy in the source). -/
def c1Snapshot : Snapshot :=
  ⟨[("indices", [("VIX", ⟨none, some 20, none, none⟩),
     ("SPX", spxUptrendEntry)])],
   some ⟨some 0⟩, none, none⟩

/-- Witness snapshot for the amended C1, the worked example of the
claim: VIX = 10, SPX in uptrend, high-yield spread 2. -/
def c1WSnapshot : Snapshot :=
  ⟨[("indices", [("VIX", ⟨none, some 10, none, none⟩),
     ("SPX", spxUptrendEntry)])],
   some ⟨some 2⟩, none, none⟩

/-- A PricePoint for symbol S at price 101. -/
def c2Entry : PriceData := ⟨some "S", some 101, none, none⟩

/-- A store with 5 points for S (insufficient history). -/
def c2StoreShort : Store := [("S", [100, 100, 100, 100, 100])]

/-- A store with 25 points for S. -/
def c2StoreLong : Store := [("S", [100, 100, 100, 100, 100, 100, 100, 100, 100, 100, 100, 100, 100, 100, 100, 100, 100, 100, 100, 100, 100, 100, 100, 100, 100])]

/-- Witness update input for C3: one well-formed entry. -/
def c3Input : UpdateInput := [("indices", [("A", ⟨none, some 1, none, none⟩)])]

/-- 253 = 252 + 1 points to append for the C3 round-trip witness. -/
def ps253 : List ℚ := List.replicate 252 1 ++ [2]

/-- A store with 25 constant prices 100 for symbol XYZ (claim C4). -/
def c4Store : Store := [("XYZ", [100, 100, 100, 100, 100, 100, 100, 100, 100, 100, 100, 100, 100, 100, 100, 100, 100, 100, 100, 100, 100, 100, 100, 100, 100])]

/-- The C4 PricePoint: current price 130, daily change 30 percent. -/
def c4Entry : PriceData := ⟨some "XYZ", some 130, some 30, none⟩

/-- The C4 snapshot holding only that entry under indices. -/
def c4Snapshot : Snapshot := ⟨[("indices", [("XYZ", c4Entry)])], none, none, none⟩

/-- The C6 failing input: a bonds section with US10Y price 1 and US2Y
price 2, so the yield-curve slope is -1 < 0. -/
def c6Snapshot : Snapshot :=
  ⟨[], none,
   some ⟨some [("US10Y", ⟨none, some 1, none, none⟩),
     ("US2Y", ⟨none, some 2, none, none⟩)], none⟩,
   none⟩

/-- The C9 failing input: the first entry lacks a price key, a second
well-formed entry follows it. -/
def c9Input : UpdateInput :=
  [("indices", [("A", emptyPriceData), ("B", ⟨none, some 5, none, none⟩)])]

/-- Witness update sequence for C10: one snapshot naming only SPX. -/
def c10Snaps : List UpdateInput :=
  [[("indices", [("SPX", ⟨none, some 1, none, none⟩)])]]

/-- The store the C10 witness sequence reaches. -/
def c10Store : Store := applyUpdates 252 c10Snaps []

/-- 21 = 20 + 1 points for the C3 round-trip witness at lookback 20. -/
def ps21 : List ℚ :=
  [1, 1, 1, 1, 1, 1, 1, 1, 1, 1, 1, 1, 1, 1, 1, 1, 1, 1, 1, 1, 2]

/-! Helper lemmas about the dict operations and the Python slice. -/

theorem dictGet_dictSet {α : Type} (l : List (String × α)) (k k' : String)
    (v : α) :
    dictGet (dictSet l k v) k' = if k' = k then some v else dictGet l k' := by
  induction l with
  | nil => simp [dictGet, dictSet]
  | cons p rest ih =>
      obtain ⟨pk, pv⟩ := p
      by_cases h : k = pk
      · subst h
        by_cases h' : k' = k <;> simp [dictGet, dictSet, h']
      · by_cases h' : k' = pk
        · subst h'
          have hne : k' ≠ k := fun hk => h hk.symm
          simp [dictGet, dictSet, h, hne]
        · simp [dictGet, dictSet, h, h', ih]

theorem mem_dictSet {α : Type} (l : List (String × α)) (k : String) (v : α)
    (p : String × α) : p ∈ dictSet l k v → p = (k, v) ∨ p ∈ l := by
  induction l with
  | nil => intro h; simpa [dictSet] using h
  | cons q rest ih =>
      intro h
      obtain ⟨qk, qv⟩ := q
      by_cases hk : k = qk
      · subst hk
        simp only [dictSet, eq_self_iff_true, if_true, List.mem_cons] at h
        rcases h with h | h
        · exact Or.inl h
        · exact Or.inr (List.mem_cons_of_mem _ h)
      · simp only [dictSet, if_neg hk, List.mem_cons] at h
        rcases h with h | h
        · exact Or.inr (List.mem_cons.mpr (Or.inl h))
        · rcases ih h with h' | h'
          · exact Or.inl h'
          · exact Or.inr (List.mem_cons_of_mem _ h')

theorem sliceLast_nil {α : Type} (n : Nat) : sliceLast n ([] : List α) = [] := by
  simp [sliceLast]

theorem length_sliceLast_le {α : Type} (n : Nat) (l : List α) (h : n ≠ 0) :
    (sliceLast n l).length ≤ n := by
  simp only [sliceLast, if_neg h, List.length_drop]
  omega

theorem length_sliceLast_of_le {α : Type} (n : Nat) (l : List α) (h0 : n ≠ 0)
    (h : n ≤ l.length) : (sliceLast n l).length = n := by
  simp only [sliceLast, if_neg h0, List.length_drop]
  omega

theorem sliceLast_append_one {α : Type} (n : Nat) (l : List α) (x : α) :
    sliceLast n (sliceLast n l ++ [x]) = sliceLast n (l ++ [x]) := by
  by_cases h0 : n = 0
  · subst h0; simp [sliceLast]
  · by_cases hlen : l.length ≤ n
    · have : l.length - n = 0 := by omega
      simp [sliceLast, if_neg h0, this]
    · have hlt : n < l.length := by omega
      have hdl : (l.drop (l.length - n)).length = n := by
        simp only [List.length_drop]; omega
      simp only [sliceLast, if_neg h0]
      have hidx1 : (l.drop (l.length - n) ++ [x]).length - n = 1 := by
        simp only [List.length_append, hdl, List.length_cons, List.length_nil]
        omega
      have hidx2 : (l ++ [x]).length - n = l.length + 1 - n := by
        simp only [List.length_append, List.length_cons, List.length_nil]
      rw [hidx1, hidx2,
        List.drop_append_of_le_length
          (by omega : 1 ≤ (l.drop (l.length - n)).length),
        List.drop_drop,
        List.drop_append_of_le_length
          (by omega : l.length + 1 - n ≤ l.length)]
      congr 2
      omega

/-! Claim theorems. -/

/-- Claim C7: for every snapshot in which the VIX entry is absent from
the indices section (or the indices section itself is absent), the
volatility-regime sub-classification and the risk-environment
sub-classification both return unknown; the KeyError raised inside the
risk-environment body is caught by its local handler, so nothing
propagates to the caller. -/
theorem c7_missing_vix (store : Store) (d : Snapshot)
    (h : (dictGet d.sections "indices").bind (fun idx => dictGet idx "VIX")
      = none) :
    analyze_volatility_regime d = "unknown"
    ∧ analyze_risk_environment store d = "unknown" := by
  constructor
  · simp [analyze_volatility_regime, h]
  · unfold analyze_risk_environment analyze_risk_environment_core
    cases hidx : dictGet d.sections "indices" with
    | none => rfl
    | some idx =>
        rw [hidx] at h
        simp only [Option.some_bind] at h
        dsimp only
        rw [h]

/-- Witness for C7 at a fully empty snapshot and empty store. -/
theorem c7_missing_vix_witness :
    analyze_volatility_regime emptySnapshot = "unknown"
    ∧ analyze_risk_environment [] emptySnapshot = "unknown" :=
  c7_missing_vix [] emptySnapshot rfl

/-- Claim C8: running the regime classification twice on the same
snapshot, with the store it threads unchanged in between, produces two
MarketRegime values that agree in every field (risk environment,
volatility regime, liquidity conditions, correlation regime and dominant
factors), and the store is unchanged by both calls: the classification
step only reads the historical store. -/
theorem c8_classification_idempotent (d : Snapshot) (store : Store) :
    (run_classify d (run_classify d store).2).1 = (run_classify d store).1
    ∧ (run_classify d store).2 = store
    ∧ (run_classify d (run_classify d store).2).2 = store :=
  ⟨rfl, rfl, rfl⟩

/-- Claim C2: with the symbol key present, _calculate_trend returns
insufficient_data whenever the stored history has fewer than 20 points
(without ever reading the price), and otherwise agrees with the
spec-side cascade trendSpec built from the mean of the last 20 and last
50 stored prices (MA50 = MA20 below 50 points) under strict
comparisons. -/
theorem c2_trend_classification (σ : Store) (pd : PriceData) (s : String)
    (hs : pd.symbol = some s) :
    (((dictGet σ s).getD []).length < 20 →
      calculate_trend σ pd = .ok "insufficient_data")
    ∧ ∀ c, pd.price = some c →
      calculate_trend σ pd = .ok (trendSpec ((dictGet σ s).getD []) c) := by
  unfold calculate_trend
  rw [hs]
  dsimp only
  constructor
  · intro hlen
    rw [if_pos hlen]
  · intro c hc
    by_cases hlen : ((dictGet σ s).getD []).length < 20
    · rw [if_pos hlen]
      unfold trendSpec
      rw [if_pos hlen]
    · rw [if_neg hlen, hc]
      unfold trendSpec
      rw [if_neg hlen]
      have h20 : 20 ≤ ((dictGet σ s).getD []).length := by omega
      have e20 : qmean (sliceLast 20 ((dictGet σ s).getD [])) =
          (((dictGet σ s).getD []).drop
            (((dictGet σ s).getD []).length - 20)).sum / 20 := by
        unfold qmean
        rw [length_sliceLast_of_le 20 _ (by norm_num) h20]
        unfold sliceLast
        norm_num
      by_cases h50 : 50 ≤ ((dictGet σ s).getD []).length
      · have e50 : qmean (sliceLast 50 ((dictGet σ s).getD [])) =
            (((dictGet σ s).getD []).drop
              (((dictGet σ s).getD []).length - 50)).sum / 50 := by
          unfold qmean
          rw [length_sliceLast_of_le 50 _ (by norm_num) h50]
          unfold sliceLast
          norm_num
        rw [if_pos h50, e20, e50]
        simp only [if_neg (by omega : ¬ ((dictGet σ s).getD []).length < 50)]
      · rw [if_neg h50, e20]
        simp only [if_pos (by omega : ((dictGet σ s).getD []).length < 50)]

/-- Witness for C2: a 5-point history yields insufficient_data; a
25-point flat history at 100 with current price 101 follows the spec
cascade (an uptrend). -/
theorem c2_trend_classification_witness :
    calculate_trend c2StoreShort c2Entry = .ok "insufficient_data"
    ∧ calculate_trend c2StoreLong c2Entry =
        .ok (trendSpec ((dictGet c2StoreLong "S").getD []) 101)
    ∧ trendSpec ((dictGet c2StoreLong "S").getD []) 101 = "uptrend" :=
  ⟨(c2_trend_classification c2StoreShort c2Entry "S" rfl).1 (by decide),
   (c2_trend_classification c2StoreLong c2Entry "S" rfl).2 101 rfl,
   by simp [trendSpec, c2StoreLong, dictGet] <;> norm_num⟩

/-- Claim C1 (amended): with VIX price and SPX entry present and the
SPX trend computed without error, the risk environment is the label of
the amended score, in which a PRESENT high-yield spread contributes +1
below 3 and -1 above 5 only when it is nonzero (the Python truthiness
test if credit_spreads: also skips the value 0). -/
theorem c1_risk_environment_amended (σ : Store) (d : Snapshot)
    (idx : AssetSection) (vixEntry spxEntry : PriceData) (vix : ℚ)
    (tr : String)
    (h1 : dictGet d.sections "indices" = some idx)
    (h2 : dictGet idx "VIX" = some vixEntry)
    (h3 : vixEntry.price = some vix)
    (h4 : dictGet idx "SPX" = some spxEntry)
    (h5 : calculate_trend σ spxEntry = .ok tr) :
    analyze_risk_environment σ d =
      riskLabelOfScore
        (riskScoreAmendedSpec vix tr (d.credit_spreads.bind (·.high_yield))) := by
  unfold analyze_risk_environment analyze_risk_environment_core
  rw [h1]
  dsimp only
  rw [h2]
  dsimp only
  rw [h3]
  dsimp only
  rw [h4]
  dsimp only
  rw [h5]
  rfl

/-- Witness for the amended C1, the worked example of the claim:
VIX = 10 (+2), SPX trend uptrend (+1), high-yield spread 2 (+1), score
4, label risk_on. -/
theorem c1_risk_environment_witness :
    analyze_risk_environment c1Store c1WSnapshot = "risk_on" :=
  (c1_risk_environment_amended c1Store c1WSnapshot _ _ _ 10 "uptrend"
    rfl rfl rfl rfl
    (by simp [calculate_trend, c1Store, spxUptrendEntry, dictGet,
      sliceLast, qmean] <;> norm_num)).trans
    (by simp [riskLabelOfScore, riskScoreAmendedSpec, c1WSnapshot] <;> norm_num)

/-- Counterexample to C1 as stated: at VIX = 20, SPX trend uptrend and
a present high-yield spread of exactly 0, the claimed score is
0 + 1 + 1 = 2 giving risk_on, but the source skips the falsy spread
value 0, scores 1, and returns neutral. -/
theorem c1_risk_environment_counterexample :
    calculate_trend c1Store spxUptrendEntry = .ok "uptrend"
    ∧ riskLabelOfScore (riskScoreSpec 20 "uptrend" (some 0)) = "risk_on"
    ∧ analyze_risk_environment c1Store c1Snapshot = "neutral" := by
  refine ⟨?_, by norm_num [riskLabelOfScore, riskScoreSpec], ?_⟩
  · simp [calculate_trend, c1Store, spxUptrendEntry, dictGet, sliceLast,
      qmean] <;> norm_num
  · simp [analyze_risk_environment, analyze_risk_environment_core,
      calculate_trend, c1Store, c1Snapshot, spxUptrendEntry, dictGet,
      sliceLast, qmean, vixLow, vixHigh] <;> norm_num


/-! Lemmas on the error behaviour of the store update (claim C9). -/

theorem updateAsset_snd (n : Nat) (σ : Store) (a : String) (pd : PriceData) :
    (updateAsset n σ a pd).2 = none ↔ pd.price ≠ none := by
  unfold updateAsset
  cases hpp : pd.price <;> simp

theorem updateAssets_snd (n : Nat) (l : List (String × PriceData)) :
    ∀ σ : Store,
      (updateAssets n σ l).2 = none ↔ ∀ ap ∈ l, ap.2.price ≠ none := by
  induction l with
  | nil => intro σ; simp [updateAssets]
  | cons hd tl ih =>
      intro σ
      obtain ⟨a, pd⟩ := hd
      rcases hua : updateAsset n σ a pd with ⟨σ1, e⟩
      have he : e = none ↔ pd.price ≠ none := by
        have h := updateAsset_snd n σ a pd
        rw [hua] at h
        simpa using h
      cases e with
      | none =>
          have hpp : pd.price ≠ none := he.mp rfl
          simp only [updateAssets, hua]
          rw [ih σ1]
          constructor
          · intro h ap hap
            rcases List.mem_cons.mp hap with rfl | hap'
            · exact hpp
            · exact h ap hap'
          · intro h ap hap
            exact h ap (List.mem_cons_of_mem _ hap)
      | some err =>
          have hpn : pd.price = none := by
            cases hpp : pd.price with
            | none => rfl
            | some v => exact absurd (he.mpr (by simp [hpp])) (by simp)
          simp only [updateAssets, hua]
          constructor
          · intro hcon
            simp at hcon
          · intro hall
            exact absurd hpn (hall (a, pd) (List.mem_cons_self _ _))

/-- Claim C9 (amended): the update raises no error exactly when every
entry of the input carries a price key; a malformed entry raises a
KeyError that aborts the update (and the exception propagates out of
analyze_market_conditions, which re-raises), rather than being skipped
silently. -/
theorem c9_update_errors (lookback : Nat) (input : UpdateInput) :
    ∀ σ : Store,
      ((update_historical_data lookback input σ).2 = none
        ↔ WellFormedInput input) := by
  induction input with
  | nil => intro σ; simp [update_historical_data, WellFormedInput]
  | cons hd rest ih =>
      intro σ
      obtain ⟨cn, assets⟩ := hd
      rcases hua : updateAssets lookback σ assets with ⟨σ1, e⟩
      have he : e = none ↔ ∀ ap ∈ assets, ap.2.price ≠ none := by
        have h := updateAssets_snd lookback assets σ
        rw [hua] at h
        simpa using h
      cases e with
      | none =>
          have hassets := he.mp rfl
          simp only [update_historical_data, hua]
          rw [ih σ1]
          unfold WellFormedInput
          constructor
          · intro h cls hcls
            rcases List.mem_cons.mp hcls with rfl | hcls'
            · exact hassets
            · exact h cls hcls'
          · intro h cls hcls
            exact h cls (List.mem_cons_of_mem _ hcls)
      | some err =>
          have hbad : ¬ ∀ ap ∈ assets, ap.2.price ≠ none := by
            intro hall
            exact absurd (he.mpr hall) (by simp)
          simp only [update_historical_data, hua]
          constructor
          · intro hcon
            simp at hcon
          · intro hall
            exact absurd (hall (cn, assets) (List.mem_cons_self _ _)) hbad

/-- Counterexample to C9 as stated: on an input whose first entry lacks
a price key, the update raises a KeyError (it does not skip the entry),
and the well-formed entry B that follows is never appended. -/
theorem c9_update_raises_counterexample :
    (update_historical_data 252 c9Input []).2 = some (.keyError "price")
    ∧ dictGet (update_historical_data 252 c9Input []).1 "B" = none := by
  constructor <;> rfl

/-! Lemmas for the bounded-store invariant and round-trip (claim C3). -/

theorem storeBounded_dictSet (n : Nat) (σ : Store) (k : String)
    (v : List ℚ) (hb : StoreBounded n σ) (hv : v.length ≤ n) :
    StoreBounded n (dictSet σ k v) := by
  intro p hp
  rcases mem_dictSet σ k v p hp with rfl | hp'
  · exact hv
  · exact hb p hp'

theorem storeBounded_updateAsset (n : Nat) (σ : Store) (a : String)
    (pd : PriceData) (hn : n ≠ 0) (hb : StoreBounded n σ) :
    StoreBounded n (updateAsset n σ a pd).1 := by
  cases hget : dictGet σ a with
  | none =>
      cases hpp : pd.price with
      | none =>
          simp only [updateAsset, hget, hpp]
          exact storeBounded_dictSet n σ a [] hb (by simp)
      | some p =>
          simp only [updateAsset, hget, hpp]
          exact storeBounded_dictSet n _ a _
            (storeBounded_dictSet n σ a [] hb (by simp))
            (length_sliceLast_le n _ hn)
  | some v =>
      cases hpp : pd.price with
      | none =>
          simp only [updateAsset, hget, hpp]
          exact hb
      | some p =>
          simp only [updateAsset, hget, hpp]
          exact storeBounded_dictSet n σ a _ hb (length_sliceLast_le n _ hn)

theorem storeBounded_updateAssets (n : Nat) (hn : n ≠ 0)
    (l : List (String × PriceData)) :
    ∀ σ : Store, StoreBounded n σ → StoreBounded n (updateAssets n σ l).1 := by
  induction l with
  | nil => intro σ hb; simpa [updateAssets] using hb
  | cons hd tl ih =>
      intro σ hb
      obtain ⟨a, pd⟩ := hd
      rcases hua : updateAsset n σ a pd with ⟨σ1, e⟩
      have hb1 : StoreBounded n σ1 := by
        have h := storeBounded_updateAsset n σ a pd hn hb
        rwa [hua] at h
      cases e with
      | none => simpa [updateAssets, hua] using ih σ1 hb1
      | some err => simpa [updateAssets, hua] using hb1

theorem storeBounded_update (n : Nat) (hn : n ≠ 0) (input : UpdateInput) :
    ∀ σ : Store, StoreBounded n σ →
      StoreBounded n (update_historical_data n input σ).1 := by
  induction input with
  | nil => intro σ hb; simpa [update_historical_data] using hb
  | cons hd rest ih =>
      intro σ hb
      obtain ⟨cn, assets⟩ := hd
      rcases hua : updateAssets n σ assets with ⟨σ1, e⟩
      have hb1 : StoreBounded n σ1 := by
        have h := storeBounded_updateAssets n hn assets σ hb
        rwa [hua] at h
      cases e with
      | none => simpa [update_historical_data, hua] using ih σ1 hb1
      | some err => simpa [update_historical_data, hua] using hb1

theorem singleUpdate_cons (n : Nat) (sym : String) (v : List ℚ) (p : ℚ) :
    (update_historical_data n (singlePointInput sym p) [(sym, v)]).1
      = [(sym, sliceLast n (v ++ [p]))] := by
  simp [update_historical_data, updateAssets, updateAsset, singlePointInput,
    dictGet, dictSet]

theorem singleUpdate_nil (n : Nat) (sym : String) (p : ℚ) :
    (update_historical_data n (singlePointInput sym p) []).1
      = [(sym, sliceLast n [p])] := by
  simp [update_historical_data, updateAssets, updateAsset, singlePointInput,
    dictGet, dictSet]

theorem appendPoints_go (n : Nat) (sym : String) (ps : List ℚ) :
    ∀ pref : List ℚ,
      ps.foldl
        (fun s p => (update_historical_data n (singlePointInput sym p) s).1)
        [(sym, sliceLast n pref)]
      = [(sym, sliceLast n (pref ++ ps))] := by
  induction ps with
  | nil => intro pref; simp
  | cons p tl ih =>
      intro pref
      rw [List.foldl_cons, singleUpdate_cons, sliceLast_append_one]
      have h := ih (pref ++ [p])
      rw [List.append_assoc] at h
      simpa using h

theorem appendPoints_eq (n : Nat) (sym : String) (ps : List ℚ)
    (hne : ps ≠ []) : appendPoints n sym ps = [(sym, sliceLast n ps)] := by
  cases ps with
  | nil => exact absurd rfl hne
  | cons p tl =>
      unfold appendPoints
      rw [List.foldl_cons, singleUpdate_nil]
      have h := appendPoints_go n sym tl [p]
      simpa using h

/-- Claim C3: for positive lookback, (i) one update call maps a store
whose series are all within the lookback bound to a store whose series
are all within the bound (so from the empty store every reachable store
satisfies the invariant), and (ii) appending lookback + k points to one
symbol through repeated update calls leaves exactly the most recent
lookback points stored, the oldest k discarded. -/
theorem c3_store_bounded_roundtrip (lookback : Nat) (hl : 0 < lookback) :
    (∀ (input : UpdateInput) (σ : Store), StoreBounded lookback σ →
        StoreBounded lookback (update_historical_data lookback input σ).1)
    ∧ ∀ (sym : String) (ps : List ℚ) (k : Nat), ps.length = lookback + k →
        dictGet (appendPoints lookback sym ps) sym = some (ps.drop k)
        ∧ (ps.drop k).length = lookback := by
  have hn : lookback ≠ 0 := by omega
  constructor
  · intro input σ hb
    exact storeBounded_update lookback hn input σ hb
  · intro sym ps k hlen
    have hne : ps ≠ [] := by
      intro hcon
      subst hcon
      simp at hlen
      omega
    rw [appendPoints_eq lookback sym ps hne]
    have hs : sliceLast lookback ps = ps.drop k := by
      unfold sliceLast
      rw [if_neg hn]
      congr 1
      omega
    refine ⟨by simp [dictGet, hs], ?_⟩
    simp only [List.length_drop]
    omega

/-- Witness for C3 at lookback 20: one update from the empty store
keeps the invariant, and appending 21 = 20 + 1 points to symbol A
retains exactly the last 20. -/
theorem c3_store_bounded_roundtrip_witness :
    StoreBounded 20 (update_historical_data 20 c3Input []).1
    ∧ dictGet (appendPoints 20 "A" ps21) "A" = some (ps21.drop 1)
    ∧ (ps21.drop 1).length = 20 := by
  refine ⟨(c3_store_bounded_roundtrip 20 (by norm_num)).1 c3Input []
    (by intro p hp; simp at hp), ?_, ?_⟩
  · exact ((c3_store_bounded_roundtrip 20 (by norm_num)).2 "A" ps21 1
      (by decide)).1
  · exact ((c3_store_bounded_roundtrip 20 (by norm_num)).2 "A" ps21 1
      (by decide)).2

/-- Counterexample to C5 as stated: on fully missing data the
correlation-regime sub-classification does NOT return unknown: it has no
local handler and no unknown outcome at all; the empty correlation
matrix gives a NaN mean, both threshold comparisons are False, and the
result is choppy, so the worst-case regime is not all-unknown. -/
theorem c5_unknown_degradation_counterexample :
    determine_market_regime [] emptySnapshot =
      ⟨"unknown", "unknown", "unknown", "choppy", ["no_dominant_factor"]⟩
    ∧ ("choppy" : String) ≠ "unknown" :=
  ⟨rfl, by decide⟩

/-- Claim C5 (amended): on a snapshot with no data, the risk,
volatility and liquidity sub-classifications degrade to unknown and the
dominant factors to the singleton no_dominant_factor, for every store;
the correlation sub-classification never raises but always lands in one
of choppy, normal, risk_off_correlation (never unknown), and on an
empty store it is choppy.  Regime classification is total (never
raises); its worst outcome has the three unknown fields together with a
choppy correlation regime. -/
theorem c5_unknown_degradation_amended :
    (∀ σ : Store, determine_market_regime σ emptySnapshot =
      ⟨"unknown", "unknown", "unknown", analyze_correlation_regime σ,
        ["no_dominant_factor"]⟩)
    ∧ (∀ σ : Store, analyze_correlation_regime σ = "choppy"
        ∨ analyze_correlation_regime σ = "normal"
        ∨ analyze_correlation_regime σ = "risk_off_correlation")
    ∧ analyze_correlation_regime [] = "choppy" := by
  refine ⟨fun σ => rfl, fun σ => ?_, rfl⟩
  unfold analyze_correlation_regime
  cases meanAbsCorr σ with
  | none => exact Or.inl rfl
  | some m =>
      by_cases h1 : m > ((corrHighTh : ℚ) : ℝ)
      · exact Or.inr (Or.inr (by simp [h1]))
      · by_cases h2 : m > ((corrNormalTh : ℚ) : ℝ)
        · exact Or.inr (Or.inl (by simp [h1, h2]))
        · exact Or.inl (by simp [h1, h2])

/-- Claim C6 (the code bug): the source tests abs(curve_slope) < 0,
which no rational satisfies, so recession_risk is dead code: at the
failing input (US10Y price 1, US2Y price 2, slope -1 < 0) the dominant
factors do not contain recession_risk, and in fact no snapshot at all
ever produces recession_risk. -/
theorem c6_recession_risk_dead_code :
    calculate_yield_curve_slope c6Snapshot = -1
    ∧ calculate_yield_curve_slope c6Snapshot < 0
    ∧ identify_dominant_factors c6Snapshot = ["no_dominant_factor"]
    ∧ ∀ d : Snapshot, "recession_risk" ∉ identify_dominant_factors d := by
  have hslope : calculate_yield_curve_slope c6Snapshot = -1 := by
    simp [calculate_yield_curve_slope, c6Snapshot, dictGet]
    norm_num
  refine ⟨hslope, by rw [hslope]; norm_num, ?_, ?_⟩
  · simp [identify_dominant_factors, c6Snapshot, analyze_credit_spreads,
      dictGet, hslope, calculate_yield_curve_slope]
    norm_num
  · intro d
    simp only [identify_dominant_factors]
    have habs : ¬ |calculate_yield_curve_slope d| < 0 :=
      not_lt.mpr (abs_nonneg _)
    simp only [if_neg habs]
    intro hmem
    repeat (first
      | simp at hmem
      | (rcases hmem with hmem | hmem)
      | split at hmem)

/-! Lemmas connecting the squared z-score comparison with the
real-valued z-score (claim C4). -/

theorem sum_eq_zero_of_nonneg (l : List ℚ) :
    (∀ x ∈ l, 0 ≤ x) → l.sum = 0 → ∀ x ∈ l, x = 0 := by
  induction l with
  | nil => intro _ _ x hx; simp at hx
  | cons a tl ih =>
      intro hn h x hx
      have ha : 0 ≤ a := hn a (List.mem_cons_self a tl)
      have htl : ∀ y ∈ tl, 0 ≤ y := fun y hy => hn y (List.mem_cons_of_mem a hy)
      have hs : 0 ≤ tl.sum := List.sum_nonneg htl
      simp only [List.sum_cons] at h
      rcases List.mem_cons.mp hx with rfl | hx'
      · linarith
      · exact ih htl (by linarith) x hx'

theorem popVar_nonneg (xs : List ℚ) : 0 ≤ popVar xs := by
  unfold popVar
  apply div_nonneg
  · apply List.sum_nonneg
    intro y hy
    simp only [List.mem_map] at hy
    obtain ⟨x, _, rfl⟩ := hy
    positivity
  · exact_mod_cast Nat.zero_le xs.length

theorem dev_eq_zero_of_popVar_zero (xs : List ℚ) (hne : xs ≠ [])
    (h : popVar xs = 0) : lastD xs 0 - qmean xs = 0 := by
  have hlen0 : xs.length ≠ 0 := fun hc => hne (List.length_eq_zero.mp hc)
  have hlen : (xs.length : ℚ) ≠ 0 := Nat.cast_ne_zero.mpr hlen0
  unfold popVar at h
  rcases div_eq_zero_iff.mp h with hsum | hcast
  · have hall := sum_eq_zero_of_nonneg (xs.map (fun x => (x - qmean xs) ^ 2))
      (by
        intro y hy
        simp only [List.mem_map] at hy
        obtain ⟨x, _, rfl⟩ := hy
        positivity) hsum
    have hmemx : lastD xs 0 ∈ xs := by
      unfold lastD
      rw [List.getLast?_eq_getLast_of_ne_nil hne]
      simpa using List.getLast_mem hne
    have hsq : (lastD xs 0 - qmean xs) ^ 2 = 0 :=
      hall _ (List.mem_map.mpr ⟨lastD xs 0, hmemx, rfl⟩)
    exact pow_eq_zero_iff (by norm_num) |>.mp hsq
  · exact absurd hcast hlen

theorem zscoreSqGt_iff_zscoreR (xs : List ℚ) (hne : xs ≠ []) (t : ℚ)
    (ht : 0 ≤ t) : zscoreSqGt xs t = true ↔ |zscoreLastR xs| > (t : ℝ) := by
  unfold zscoreSqGt zscoreLastR
  rw [decide_eq_true_iff]
  by_cases hv : popVar xs = 0
  · have hdev := dev_eq_zero_of_popVar_zero xs hne hv
    rw [hv, hdev]
    constructor
    · intro hcon
      norm_num at hcon
    · intro hcon
      norm_num at hcon
      exact absurd hcon (not_lt.mpr (by exact_mod_cast ht))
  · have hvpos : 0 < popVar xs := (popVar_nonneg xs).lt_of_ne (Ne.symm hv)
    have hvR : (0:ℝ) < ((popVar xs : ℚ) : ℝ) := by exact_mod_cast hvpos
    have hsqrt : 0 < Real.sqrt ((popVar xs : ℚ) : ℝ) := Real.sqrt_pos.mpr hvR
    have hsq : Real.sqrt ((popVar xs : ℚ) : ℝ) ^ 2 = ((popVar xs : ℚ) : ℝ) :=
      Real.sq_sqrt hvR.le
    have htR : (0:ℝ) ≤ ((t : ℚ) : ℝ) := by exact_mod_cast ht
    rw [abs_div, abs_of_pos hsqrt]
    have hiff : (|((lastD xs 0 - qmean xs : ℚ) : ℝ)|
          / Real.sqrt ((popVar xs : ℚ) : ℝ) > ((t : ℚ) : ℝ))
        ↔ ((t : ℚ) : ℝ) * Real.sqrt ((popVar xs : ℚ) : ℝ)
          < |((lastD xs 0 - qmean xs : ℚ) : ℝ)| := by
      rw [gt_iff_lt, lt_div_iff₀ hsqrt]
    rw [hiff]
    constructor
    · intro hq
      have hR : (((lastD xs 0 - qmean xs : ℚ)) : ℝ) ^ 2
          > ((t : ℚ) : ℝ) ^ 2 * ((popVar xs : ℚ) : ℝ) := by exact_mod_cast hq
      nlinarith [sq_abs (((lastD xs 0 - qmean xs : ℚ)) : ℝ),
        abs_nonneg (((lastD xs 0 - qmean xs : ℚ)) : ℝ),
        mul_nonneg htR hsqrt.le, hsq, hsqrt]
    · intro hR
      have hq : (((lastD xs 0 - qmean xs : ℚ)) : ℝ) ^ 2
          > ((t : ℚ) : ℝ) ^ 2 * ((popVar xs : ℚ) : ℝ) := by
        nlinarith [sq_abs (((lastD xs 0 - qmean xs : ℚ)) : ℝ),
          abs_nonneg (((lastD xs 0 - qmean xs : ℚ)) : ℝ),
          mul_nonneg htR hsqrt.le, hsq, hsqrt]
      exact_mod_cast hq

/-- Claim C4: for an analyzed entry (symbol and price present, at least
20 stored points), the z-score anomaly fires exactly when the magnitude
of the population z-score of the last element of history plus current
price exceeds 3, its severity is high exactly when that magnitude
exceeds 4 (else medium), and the move anomaly fires exactly when the
reported daily change exceeds 5 percent in magnitude.  On the concrete
input of claim C4 (25 constant prices 100, current price 130, change
30) both anomalies fire, each with severity high (the z-score there is
exactly 5). -/
theorem c4_price_anomalies (σ : Store) (cn a : String) (pd : PriceData)
    (sym : String) (current : ℚ)
    (hs : pd.symbol = some sym) (hp : pd.price = some current)
    (hh : 20 ≤ ((dictGet σ sym).getD []).length) :
    ((∃ an ∈ priceAnomaliesForAsset σ cn a pd, an.atype = "price_zscore")
      ↔ |zscoreLastR ((dictGet σ sym).getD [] ++ [current])| > 3)
    ∧ ((∃ an ∈ priceAnomaliesForAsset σ cn a pd, an.atype = "price_move")
      ↔ |pd.change.getD 0| > 5)
    ∧ (∀ an ∈ priceAnomaliesForAsset σ cn a pd, an.atype = "price_zscore" →
        (an.severity = "high"
          ↔ |zscoreLastR ((dictGet σ sym).getD [] ++ [current])| > 4))
    ∧ detect_price_anomalies c4Store c4Snapshot =
        [⟨"price_zscore", "indices_XYZ", "high"⟩,
         ⟨"price_move", "indices_XYZ", "high"⟩] := by
  have hne : pd ≠ emptyPriceData := by
    intro hcon
    rw [hcon] at hs
    simp [emptyPriceData] at hs
  have hnlt : ¬ ((dictGet σ sym).getD []).length < 20 := not_lt.mpr hh
  have hres : priceAnomaliesForAsset σ cn a pd =
      (if zscoreSqGt ((dictGet σ sym).getD [] ++ [current]) 3 then
        [⟨"price_zscore", cn ++ "_" ++ a,
          if zscoreSqGt ((dictGet σ sym).getD [] ++ [current]) 4 then "high"
          else "medium"⟩] else [])
      ++ (if |pd.change.getD 0 / 100| > (1:ℚ)/20 then
        [⟨"price_move", cn ++ "_" ++ a,
          if |pd.change.getD 0 / 100| > (1:ℚ)/10 then "high" else "medium"⟩]
        else []) := by
    simp only [priceAnomaliesForAsset, if_neg hne, hs, hp, if_neg hnlt]
  have hcne : (dictGet σ sym).getD [] ++ [current] ≠ [] := by simp
  have hb3 := zscoreSqGt_iff_zscoreR ((dictGet σ sym).getD [] ++ [current])
    hcne 3 (by norm_num)
  have hb4 := zscoreSqGt_iff_zscoreR ((dictGet σ sym).getD [] ++ [current])
    hcne 4 (by norm_num)
  push_cast at hb3 hb4
  have hmv : (|pd.change.getD 0 / 100| > (1:ℚ)/20)
      ↔ |pd.change.getD 0| > 5 := by
    rw [abs_div, show |(100:ℚ)| = 100 by norm_num, gt_iff_lt,
      lt_div_iff₀ (by norm_num : (0:ℚ) < 100)]
    norm_num
  refine ⟨?_, ?_, ?_, ?_⟩
  · rw [hres]
    by_cases hz : zscoreSqGt ((dictGet σ sym).getD [] ++ [current]) 3 = true
    · simp only [if_pos hz]
      apply iff_of_true
      · refine ⟨⟨"price_zscore", cn ++ "_" ++ a,
          if zscoreSqGt ((dictGet σ sym).getD [] ++ [current]) 4 then "high"
          else "medium"⟩, ?_, rfl⟩
        simp
      · exact hb3.mp hz
    · simp only [if_neg hz, List.nil_append]
      apply iff_of_false
      · rintro ⟨an, hmem, hty⟩
        by_cases hm : |pd.change.getD 0 / 100| > (1:ℚ)/20
        · simp only [if_pos hm, List.mem_singleton] at hmem
          subst hmem
          simp at hty
        · simp only [if_neg hm] at hmem
          simp at hmem
      · exact fun hcon => hz (hb3.mpr hcon)
  · rw [hres]
    by_cases hm : |pd.change.getD 0 / 100| > (1:ℚ)/20
    · simp only [if_pos hm]
      apply iff_of_true
      · refine ⟨⟨"price_move", cn ++ "_" ++ a,
          if |pd.change.getD 0 / 100| > (1:ℚ)/10 then "high"
          else "medium"⟩, ?_, rfl⟩
        simp
      · exact hmv.mp hm
    · simp only [if_neg hm, List.append_nil]
      apply iff_of_false
      · rintro ⟨an, hmem, hty⟩
        by_cases hz : zscoreSqGt ((dictGet σ sym).getD [] ++ [current]) 3
            = true
        · simp only [if_pos hz, List.mem_singleton] at hmem
          subst hmem
          simp at hty
        · simp only [if_neg hz] at hmem
          simp at hmem
      · exact fun hcon => hm (hmv.mpr hcon)
  · rw [hres]
    intro an hmem hty
    by_cases hz : zscoreSqGt ((dictGet σ sym).getD [] ++ [current]) 3 = true
    · simp only [if_pos hz] at hmem
      rcases List.mem_append.mp hmem with hl | hr
      · rw [List.mem_singleton] at hl
        subst hl
        by_cases h4 : zscoreSqGt ((dictGet σ sym).getD [] ++ [current]) 4
            = true
        · simp only [if_pos h4]
          simp [hb4.mp h4]
        · simp only [if_neg h4]
          apply iff_of_false
          · simp
          · exact fun hcon => h4 (hb4.mpr hcon)
      · by_cases hm : |pd.change.getD 0 / 100| > (1:ℚ)/20
        · simp only [if_pos hm, List.mem_singleton] at hr
          subst hr
          simp at hty
        · simp only [if_neg hm] at hr
          simp at hr
    · simp only [if_neg hz, List.nil_append] at hmem
      by_cases hm : |pd.change.getD 0 / 100| > (1:ℚ)/20
      · simp only [if_pos hm, List.mem_singleton] at hmem
        subst hmem
        simp at hty
      · simp only [if_neg hm] at hmem
        simp at hmem
  · simp [detect_price_anomalies, priceAnomaliesForAsset, c4Store,
      c4Snapshot, c4Entry, dictGet, emptyPriceData]
    norm_num [zscoreSqGt, popVar, qmean, lastD, decide_eq_true_iff,
      List.getLast?_concat]
    rw [abs_of_pos (show (0:ℚ) < 3/10 by norm_num)]
    norm_num

/-- Witness for C4 at the concrete claim input: instantiating the
characterization at the 25-point constant history shows the move-anomaly
equivalence there. -/
theorem c4_price_anomalies_witness :
    (∃ an ∈ priceAnomaliesForAsset c4Store "indices" "XYZ" c4Entry,
      an.atype = "price_move") ↔ |c4Entry.change.getD 0| > 5 :=
  (c4_price_anomalies c4Store "indices" "XYZ" c4Entry "XYZ" 130 rfl rfl
    (by simp [c4Store, dictGet])).2.1

/-! Key-tracking lemmas for the store update (claim C10): every key the
update writes is an asset name of its input. -/

theorem dictGet_updateAsset_ne (n : Nat) (σ : Store) (a : String)
    (pd : PriceData) (k : String)
    (h : dictGet (updateAsset n σ a pd).1 k ≠ none) :
    k = a ∨ dictGet σ k ≠ none := by
  by_cases hk : k = a
  · exact Or.inl hk
  · right
    cases hget : dictGet σ a with
    | none =>
        cases hpp : pd.price with
        | none =>
            simp only [updateAsset, hget, hpp] at h
            rwa [dictGet_dictSet, if_neg hk] at h
        | some p =>
            simp only [updateAsset, hget, hpp] at h
            rw [dictGet_dictSet, if_neg hk, dictGet_dictSet, if_neg hk] at h
            exact h
    | some v =>
        cases hpp : pd.price with
        | none =>
            simpa only [updateAsset, hget, hpp] using h
        | some p =>
            simp only [updateAsset, hget, hpp] at h
            rwa [dictGet_dictSet, if_neg hk] at h

theorem dictGet_updateAssets_ne (n : Nat) (l : List (String × PriceData)) :
    ∀ (σ : Store) (k : String), dictGet (updateAssets n σ l).1 k ≠ none →
      (∃ ap ∈ l, ap.1 = k) ∨ dictGet σ k ≠ none := by
  induction l with
  | nil =>
      intro σ k h
      exact Or.inr (by simpa [updateAssets] using h)
  | cons hd tl ih =>
      intro σ k h
      obtain ⟨a, pd⟩ := hd
      rcases hua : updateAsset n σ a pd with ⟨σ1, e⟩
      have hk1 : dictGet σ1 k ≠ none → k = a ∨ dictGet σ k ≠ none := by
        intro hcon
        have hthis := dictGet_updateAsset_ne n σ a pd k
        rw [hua] at hthis
        exact hthis hcon
      cases e with
      | none =>
          simp only [updateAssets, hua] at h
          rcases ih σ1 k h with ⟨ap, hap, hk⟩ | hne
          · exact Or.inl ⟨ap, List.mem_cons_of_mem _ hap, hk⟩
          · rcases hk1 hne with rfl | hσ
            · exact Or.inl ⟨(k, pd), List.mem_cons_self _ _, rfl⟩
            · exact Or.inr hσ
      | some err =>
          simp only [updateAssets, hua] at h
          rcases hk1 h with rfl | hσ
          · exact Or.inl ⟨(k, pd), List.mem_cons_self _ _, rfl⟩
          · exact Or.inr hσ

theorem dictGet_update_ne (n : Nat) (input : UpdateInput) :
    ∀ (σ : Store) (k : String),
      dictGet (update_historical_data n input σ).1 k ≠ none →
      (∃ cls ∈ input, ∃ ap ∈ cls.2, ap.1 = k) ∨ dictGet σ k ≠ none := by
  induction input with
  | nil =>
      intro σ k h
      exact Or.inr (by simpa [update_historical_data] using h)
  | cons hd rest ih =>
      intro σ k h
      obtain ⟨cn, assets⟩ := hd
      rcases hua : updateAssets n σ assets with ⟨σ1, e⟩
      have hk1 : dictGet σ1 k ≠ none →
          (∃ ap ∈ assets, ap.1 = k) ∨ dictGet σ k ≠ none := by
        intro hcon
        have hthis := dictGet_updateAssets_ne n assets σ k
        rw [hua] at hthis
        exact hthis hcon
      cases e with
      | none =>
          simp only [update_historical_data, hua] at h
          rcases ih σ1 k h with ⟨cls, hcls, hin⟩ | hne
          · exact Or.inl ⟨cls, List.mem_cons_of_mem _ hcls, hin⟩
          · rcases hk1 hne with ⟨ap, hap, hk⟩ | hσ
            · exact Or.inl ⟨(cn, assets), List.mem_cons_self _ _, ap, hap, hk⟩
            · exact Or.inr hσ
      | some err =>
          simp only [update_historical_data, hua] at h
          rcases hk1 h with ⟨ap, hap, hk⟩ | hσ
          · exact Or.inl ⟨(cn, assets), List.mem_cons_self _ _, ap, hap, hk⟩
          · exact Or.inr hσ

theorem dictGet_applyUpdates_ne (n : Nat) (snaps : List UpdateInput) :
    ∀ (σ : Store) (k : String),
      dictGet (applyUpdates n snaps σ) k ≠ none →
      (∃ snap ∈ snaps, ∃ cls ∈ snap, ∃ ap ∈ cls.2, ap.1 = k)
      ∨ dictGet σ k ≠ none := by
  induction snaps with
  | nil =>
      intro σ k h
      exact Or.inr (by simpa [applyUpdates] using h)
  | cons snap rest ih =>
      intro σ k h
      rw [applyUpdates, List.foldl_cons] at h
      rcases ih _ k h with ⟨s, hs, hin⟩ | hne
      · exact Or.inl ⟨s, List.mem_cons_of_mem _ hs, hin⟩
      · rcases dictGet_update_ne n snap σ k hne with ⟨cls, hcls, hin⟩ | hσ
        · exact Or.inl ⟨snap, List.mem_cons_self _ _, cls, hcls, hin⟩
        · exact Or.inr hσ

theorem flatMap_eq_nil_of_forall {α β : Type} (l : List α) (f : α → List β)
    (h : ∀ x ∈ l, f x = []) : l.flatMap f = [] := by
  induction l with
  | nil => rfl
  | cons a tl ih =>
      rw [List.flatMap_cons, h a (List.mem_cons_self a tl), List.nil_append]
      exact ih (fun x hx => h x (List.mem_cons_of_mem _ hx))

theorem liquidityVolume_inner_id (store : Store)
    (hvol : ∀ a : String, get_historical_volumes store a = [])
    (l : List (String × PriceData)) :
    ∀ acc : Int × Nat,
      l.foldl (fun acc ap =>
        match ap.2.volume with
        | none => acc
        | some v =>
            let histv := get_historical_volumes store ap.1
            if histv = [] then acc
            else ((if v > qmean histv then acc.1 + 1 else acc.1 - 1),
              acc.2 + 1)) acc = acc := by
  induction l with
  | nil => intro acc; simp
  | cons hd tl ih =>
      intro acc
      rw [List.foldl_cons]
      have hstep : (match hd.2.volume with
          | none => acc
          | some v =>
              let histv := get_historical_volumes store hd.1
              if histv = [] then acc
              else ((if v > qmean histv then acc.1 + 1 else acc.1 - 1),
                acc.2 + 1)) = acc := by
        cases hd.2.volume with
        | none => rfl
        | some v => simp [hvol hd.1]
      rw [hstep]
      exact ih acc

/-- Claim C10: the historical-data update writes only keys equal to the
asset names of its snapshots, while the volume lookup reads the key
asset followed by _volume; hence after any sequence of updates from the
empty store whose snapshots contain no asset name of the form x followed
by _volume, every historical volume series is empty, volume anomaly
detection returns the empty list on every snapshot, and the per-symbol
volume comparison contributes zero score and zero components to the
liquidity analysis. -/
theorem c10_no_volume_keys (lookback : Nat) (snaps : List UpdateInput)
    (store : Store) (hstore : store = applyUpdates lookback snaps [])
    (hnames : NoVolumeNames snaps) :
    (∀ a : String, get_historical_volumes store a = [])
    ∧ (∀ d : Snapshot, detect_volume_anomalies store d = [])
    ∧ (∀ sections : UpdateInput,
        liquidityVolumeComponents store sections = (0, 0)) := by
  have hvol : ∀ a : String, get_historical_volumes store a = [] := by
    intro a
    unfold get_historical_volumes
    cases hget : dictGet store (a ++ "_volume") with
    | none => rfl
    | some v =>
        exfalso
        have hne : dictGet store (a ++ "_volume") ≠ none := by
          rw [hget]
          simp
        rw [hstore] at hne
        rcases dictGet_applyUpdates_ne lookback snaps [] (a ++ "_volume") hne
          with ⟨snap, hsnap, cls, hcls, ap, hap, hk⟩ | hemp
        · exact hnames snap hsnap cls hcls ap hap a hk
        · simp [dictGet] at hemp
  have hasset : ∀ (cn aa : String) (pd : PriceData),
      volumeAnomaliesForAsset store cn aa pd = [] := by
    intro cn aa pd
    unfold volumeAnomaliesForAsset
    cases pd.volume with
    | none => rfl
    | some v => simp [hvol aa]
  refine ⟨hvol, ?_, ?_⟩
  · intro d
    unfold detect_volume_anomalies
    apply flatMap_eq_nil_of_forall
    intro cls _
    apply flatMap_eq_nil_of_forall
    intro ap _
    exact hasset cls.1 ap.1 ap.2
  · intro sections
    unfold liquidityVolumeComponents
    induction sections with
    | nil => rfl
    | cons cls rest ih =>
        rw [List.foldl_cons, liquidityVolume_inner_id store hvol cls.2 (0, 0)]
        exact ih

/-- Witness for C10: one update snapshot naming only SPX reaches a
store with no volume key, an empty volume-anomaly list, and zero
liquidity volume components. -/
theorem c10_no_volume_keys_witness :
    get_historical_volumes c10Store "SPX" = []
    ∧ detect_volume_anomalies c10Store emptySnapshot = []
    ∧ liquidityVolumeComponents c10Store [] = (0, 0) := by
  have hnames : NoVolumeNames c10Snaps := by
    unfold NoVolumeNames
    intro snap hsnap cls hcls ap hap x hcon
    simp only [c10Snaps, List.mem_singleton] at hsnap
    subst hsnap
    simp only [List.mem_singleton] at hcls
    subst hcls
    simp only [List.mem_singleton] at hap
    subst hap
    have hlen := congrArg String.length hcon
    rw [String.length_append] at hlen
    rw [show ("SPX" : String).length = 3 from rfl,
      show ("_volume" : String).length = 7 from rfl] at hlen
    omega
  have h := c10_no_volume_keys 252 c10Snaps c10Store rfl hnames
  exact ⟨h.1 "SPX", h.2.1 emptySnapshot, h.2.2 []⟩
